import Mathlib

/-!
Shallow embedding of `tcms/issuetracker/bitbucket.py` (Kiwi BitBucket issue
tracker integration).

Python strings are modelled by Lean `String`; the two Python string methods
the module uses, `str.replace` and `str.split`, are modelled by executable
recursive functions over `List Char` with the exact Python semantics
(left-to-right, non-overlapping replacement; `split` on a one-character
separator keeping empty fields).  JSON values travelling through the REST
client are modelled by an inductive `Json` type; Python dictionary indexing
`d[k]` becomes `jsonLookup`, with `none` standing for the raised
`KeyError`/`TypeError`.  Fallible Python code (exceptions) is modelled with
`Option`/`Except`.  Outcomes of network calls (`rpc.create_issue`,
`rpc.get_issue`, ...) and of the Django ORM call
(`LinkReference.objects.get_or_create`) are passed in as function-valued
parameters, and the requests a function issues are returned as data, so that
theorems can quantify over every possible remote behaviour.
-/

namespace BitBucketSpec

/-- JSON values as returned by `response.json()` and built for request
bodies.  Numbers are restricted to integers, which is all the module
touches (`issue["id"]`). -/
inductive Json where
  | null : Json
  | bool (b : Bool) : Json
  | num (n : Int) : Json
  | str (s : String) : Json
  | arr (elems : List Json) : Json
  | obj (fields : List (String × Json)) : Json
deriving Repr

/-- Python `d[k]` on a JSON value: a lookup that succeeds only on an
object containing the key (dictionaries have unique keys, so first match
suffices); anything else raises in Python, modelled by `none`. -/
def jsonLookup : Json → String → Option Json
  | .obj fields, key => lookupField fields key
  | _, _ => none
where
  lookupField : List (String × Json) → String → Option Json
    | [], _ => none
    | (k, v) :: rest, key => if k == key then some v else lookupField rest key

/-- Fuel-indexed worker for `replaceAll`; the fuel only has to dominate the
length of the remaining input, so `fuel = s.length` computes the full
replacement.  (Structural recursion on the fuel keeps the function
kernel-reducible.) -/
def replaceAllGo (pat repl : List Char) : Nat → List Char → List Char
  | 0, s => s
  | fuel + 1, s =>
    match s with
    | [] => []
    | c :: rest =>
      if pat ≠ [] ∧ pat.isPrefixOf (c :: rest) then
        repl ++ replaceAllGo pat repl fuel ((c :: rest).drop pat.length)
      else
        c :: replaceAllGo pat repl fuel rest

/-- Python `str.replace(pat, repl)` on character lists: replace every
non-overlapping occurrence of `pat`, scanning left to right.  (The module
never calls it with an empty pattern; an empty pattern replaces nothing
here.) -/
def replaceAll (pat repl s : List Char) : List Char :=
  replaceAllGo pat repl s.length s

/-- Python `str.replace` lifted to `String`. -/
def pyReplace (s pat repl : String) : String :=
  String.mk (replaceAll pat.data repl.data s.data)

/-- Python `str.split(sep)` for a one-character separator: splits at every
occurrence, keeping empty fields, so the result is never empty
(`"".split("/") == [""]`). -/
def splitOnChar (sep : Char) : List Char → List (List Char)
  | [] => [[]]
  | c :: rest =>
    if c = sep then
      [] :: splitOnChar sep rest
    else
      match splitOnChar sep rest with
      | [] => [[c]]
      | grp :: grps => (c :: grp) :: grps

/-- Whether `pat` occurs as a contiguous sublist of `s` (Python
`pat in s`). -/
def hasSub (pat : List Char) : List Char → Bool
  | [] => pat.isPrefixOf []
  | c :: rest => pat.isPrefixOf (c :: rest) || hasSub pat rest

/-- String-level wrapper for `hasSub`. -/
def strHasSub (pat s : String) : Bool :=
  hasSub pat.data s.data

/-- BitBucketAPI._construct_endpoint_url: `url.replace("https://", "")`,
split on `"/"`, read segments 1 and 2 as workspace and repository.  The
Python `IndexError` raised when either segment is missing (fewer than
three segments) is modelled by `none`. -/
def construct_endpoint_url (api_version url : String) : Option String :=
  let splitted_url := splitOnChar '/' (replaceAll "https://".data [] url.data)
  let base_url := "https://api.bitbucket.org"
  match splitted_url with
  | _ :: workspace :: repository :: _ =>
      some (base_url ++ "/" ++ api_version ++ "/repositories/" ++
        String.mk workspace ++ "/" ++ String.mk repository)
  | _ => none

mutual

/-- Python `repr` on the modelled JSON values (`repr(dict)` prints the
fields brace-enclosed with single-quoted keys and repr-ed values). -/
def pyRepr : Json → String
  | .null => "None"
  | .bool b => if b then "True" else "False"
  | .num n => toString n
  | .str s => "\x27" ++ s ++ "\x27"
  | .arr elems => "[" ++ pyReprElems elems ++ "]"
  | .obj fields => "\x7b" ++ pyReprFields fields ++ "\x7d"

/-- Python `repr` of a list of JSON values, comma-separated. -/
def pyReprElems : List Json → String
  | [] => ""
  | [v] => pyRepr v
  | v :: rest => pyRepr v ++ ", " ++ pyReprElems rest

/-- Python `repr` of the key-value fields of a dict, comma-separated. -/
def pyReprFields : List (String × Json) → String
  | [] => ""
  | [(k, v)] => "\x27" ++ k ++ "\x27: " ++ pyRepr v
  | (k, v) :: rest => "\x27" ++ k ++ "\x27: " ++ pyRepr v ++ ", " ++ pyReprFields rest
end

/-- Python `str()` as used by f-string interpolation: identity on strings,
`repr` on everything else (`str(42) = "42"`). -/
def pyStr : Json → String
  | .str s => s
  | v => pyRepr v

/-- An HTTP response object as returned by `requests.request`. -/
structure HttpResponse where
  status : Nat
  body : String
deriving Repr

/-- Result of `BitBucketAPI._request`: either the raw response object
(`DELETE` branch) or the JSON-parsed body (`.json()` branch). -/
inductive RequestResult where
  | raw (resp : HttpResponse) : RequestResult
  | parsed (json : Json) : RequestResult
deriving Repr

/-- Whether a `_request` outcome is the raw (unparsed) response object. -/
def returnsRaw : Except Unit RequestResult → Bool
  | .ok (.raw _) => true
  | _ => false

/-- The configured BitBucketAPI object: endpoint URL derived in `__init__`,
plus the basic-auth credentials. -/
structure BitBucketAPI where
  endpoint_url : String
  api_username : String
  api_password : String
deriving Repr

/-- BitBucketAPI.__init__ with `api_version = "2.0"`: endpoint construction
may raise (modelled by `none`), in which case no object is produced. -/
def BitBucketAPI.init (base_url api_username api_password : String) :
    Option BitBucketAPI :=
  match construct_endpoint_url "2.0" base_url with
  | none => none
  | some endpoint => some ⟨endpoint, api_username, api_password⟩

/-- BitBucketAPI._request.  The transport (`requests.request`) is a
parameter mapping (method, url, optional JSON body) to a response; JSON
decoding of the body is a parameter too, since it can fail
(`Except`). `DELETE` returns the raw response object, everything else the
parsed body. -/
def BBrequest (http : String → String → Option Json → HttpResponse)
    (parseJson : String → Except Unit Json)
    (method url : String) (body : Option Json) : Except Unit RequestResult :=
  if method == "DELETE" then
    .ok (.raw (http method url body))
  else
    match parseJson (http method url body).body with
    | .error e => .error e
    | .ok j => .ok (.parsed j)

/-- BitBucketAPI.create_issue: `POST {endpoint}/issues` with a JSON body. -/
def create_issue (api : BitBucketAPI)
    (http : String → String → Option Json → HttpResponse)
    (parseJson : String → Except Unit Json) (data : Json) :
    Except Unit RequestResult :=
  BBrequest http parseJson "POST" (api.endpoint_url ++ "/issues") (some data)

/-- BitBucketAPI.get_issue: `GET {endpoint}/issues/{issue_id}`. -/
def get_issue (api : BitBucketAPI)
    (http : String → String → Option Json → HttpResponse)
    (parseJson : String → Except Unit Json) (issue_id : String) :
    Except Unit RequestResult :=
  BBrequest http parseJson "GET" (api.endpoint_url ++ "/issues/" ++ issue_id) none

/-- BitBucketAPI.update_issue: `POST {endpoint}/issues/{issue_id}/changes`. -/
def update_issue (api : BitBucketAPI)
    (http : String → String → Option Json → HttpResponse)
    (parseJson : String → Except Unit Json) (issue_id : String) (data : Json) :
    Except Unit RequestResult :=
  BBrequest http parseJson "POST"
    (api.endpoint_url ++ "/issues/" ++ issue_id ++ "/changes") (some data)

/-- BitBucketAPI.add_comment: `POST {endpoint}/issues/{issue_id}/comments/`. -/
def add_comment (api : BitBucketAPI)
    (http : String → String → Option Json → HttpResponse)
    (parseJson : String → Except Unit Json) (issue_id : String) (comment : Json) :
    Except Unit RequestResult :=
  BBrequest http parseJson "POST"
    (api.endpoint_url ++ "/issues/" ++ issue_id ++ "/comments/") (some comment)

/-- BitBucketAPI.get_comments:
`GET {endpoint}/issues/{issue_id}/comments?sort=-updated_on`. -/
def get_comments (api : BitBucketAPI)
    (http : String → String → Option Json → HttpResponse)
    (parseJson : String → Except Unit Json) (issue_id : String) :
    Except Unit RequestResult :=
  BBrequest http parseJson "GET"
    (api.endpoint_url ++ "/issues/" ++ issue_id ++ "/comments?sort=-updated_on") none

/-- BitBucketAPI.delete_comment:
`DELETE {endpoint}/issues/{issue_id}/comments/{comment_id}`. -/
def delete_comment (api : BitBucketAPI)
    (http : String → String → Option Json → HttpResponse)
    (parseJson : String → Except Unit Json) (issue_id comment_id : String) :
    Except Unit RequestResult :=
  BBrequest http parseJson "DELETE"
    (api.endpoint_url ++ "/issues/" ++ issue_id ++ "/comments/" ++ comment_id) none

/-- Python truthiness of an optional string configuration value: `None`
and the empty string are falsy, every other string truthy. -/
def truthyStr : Option String → Bool
  | none => false
  | some s => !(s == "")

/-- BitBucket.is_adding_testcase_to_issue_disabled:
`not (base_url and api_username and api_password)` under Python
truthiness; a pure function of the three configuration values. -/
def is_adding_testcase_to_issue_disabled
    (base_url api_username api_password : Option String) : Bool :=
  !(truthyStr base_url && truthyStr api_username && truthyStr api_password)

/-- A Django `LinkReference` row as created by
`LinkReference.objects.get_or_create(execution=..., url=..., is_defect=True)`;
the execution is identified by its id. -/
structure LinkRecord where
  execution : Nat
  url : String
  is_defect : Bool
deriving Repr, DecidableEq

/-- Python `str.endswith` (on the character lists of the strings). -/
def pyEndsWith (s suffix : String) : Bool :=
  suffix.data.isSuffixOf s.data

/-- The manual-entry fallback URL built in `_report_issue`'s `except`
branch: the base URL, a `/` appended when missing, then `issues/new`. -/
def report_fallback_url (base_url : String) : String :=
  (if pyEndsWith base_url "/" then base_url else base_url ++ "/") ++ "issues/new"

/-- The request body `_report_issue` builds for `rpc.create_issue`: title
from the test-case summary, fixed kind/priority, and the templated report
comment (a base-class helper, passed in as `report_comment`) with LF
normalized to CRLF. -/
def report_issue_data (case_summary report_comment : String) : Json :=
  .obj [("title", .str ("Failed test: " ++ case_summary)),
        ("kind", .str "bug"),
        ("priority", .str "major"),
        ("content", .obj [("raw", .str (pyReplace report_comment "\n" "\r\n"))])]

/-- BitBucket._report_issue.  The outcome of `rpc.create_issue` is the
parameter `createIssue` (`Except` models a raised exception); the outcome
of `LinkReference.objects.get_or_create` is the parameter `persist`
(`false` models a raised exception).  Returns the Python pair
`(issue-or-None, url)` together with the list of link records created, so
theorems can count them.  Any failure lands in the `except Exception`
branch, which returns `(None, fallback-url)`. -/
def _report_issue (base_url : String) (execution : Nat)
    (case_summary report_comment : String)
    (createIssue : Json → Except Unit Json)
    (persist : LinkRecord → Bool) :
    (Option Json × String) × List LinkRecord :=
  match createIssue (report_issue_data case_summary report_comment) with
  | .error _ => ((none, report_fallback_url base_url), [])
  | .ok issue =>
    match jsonLookup issue "id" with
    | none => ((none, report_fallback_url base_url), [])
    | some issueId =>
      let issue_url := base_url ++ "/issues/" ++ pyStr issueId
      let link : LinkRecord := ⟨execution, issue_url, true⟩
      if persist link then
        ((some issue, issue_url), [link])
      else
        ((none, report_fallback_url base_url), [])

/-- The body BitBucket.post_comment builds: the templated comment text
(base-class helper `self.text`, passed in as `text`) with every LF doubled,
wrapped as a nested raw-content object. -/
def post_comment_body (text : String) : Json :=
  .obj [("content", .obj [("raw", .str (pyReplace text "\n" "\n\n"))])]

/-- The one call `rpc.add_comment(bug_id, comment_body)` issued by
BitBucket.post_comment. -/
structure AddCommentCall where
  bug_id : String
  comment : Json
deriving Repr

/-- BitBucket.post_comment: issues exactly one `add_comment` call with the
normalized body and returns Python `None` (the call result is discarded,
never inspected). -/
def post_comment (text : String) (bug_id : String) : AddCommentCall × Unit :=
  ({ bug_id := bug_id, comment := post_comment_body text }, ())

/-- BitBucket.details.  The id extraction `self.bug_id_from_url` is a
base-class helper, passed in as `bug_id_from_url`; the outcome of
`rpc.get_issue` is the parameter `getIssue`.  Missing keys in the remote
response (`issue["id"]`, `issue["content"]["raw"]`, `issue["state"]`,
`issue["title"]`) raise in Python, modelled by `.error`. -/
def details (bug_id_from_url : String → String)
    (getIssue : String → Except Unit Json) (url : String) :
    Except Unit Json :=
  match getIssue (bug_id_from_url url) with
  | .error e => .error e
  | .ok issue =>
    match jsonLookup issue "id",
        (jsonLookup issue "content").bind (fun c => jsonLookup c "raw"),
        jsonLookup issue "state",
        jsonLookup issue "title" with
    | some i, some d, some s, some t =>
        .ok (.obj [("id", i), ("description", d), ("status", s),
                   ("title", t), ("url", .str url)])
    | _, _, _, _ => .error ()

/-- Test double: a `create_issue` outcome that always raises. -/
def createFail : Json → Except Unit Json := fun _ => .error ()

/-- Test double: a `create_issue` outcome returning an issue with id 42. -/
def createOk42 : Json → Except Unit Json :=
  fun _ => .ok (.obj [("id", .num 42), ("title", .str "Failed test: s")])

/-- Test double: a `create_issue` outcome returning an object with no
`id` key. -/
def createOkNoId : Json → Except Unit Json := fun _ => .ok (.obj [])

/-- Test double: link persistence that always succeeds. -/
def persistAlways : LinkRecord → Bool := fun _ => true

/-- Test double: link persistence that always raises. -/
def persistNever : LinkRecord → Bool := fun _ => false

/-- Test double: the remote issue response used by the `details` claim. -/
def sampleIssueResponse : Json :=
  .obj [("id", .num 1), ("content", .obj [("raw", .str "d")]),
        ("state", .str "open"), ("title", .str "t")]

/-- Test double: a `get_issue` outcome returning `sampleIssueResponse`. -/
def getIssueSample : String → Except Unit Json := fun _ => .ok sampleIssueResponse

/-- Test double: a url-to-id extractor returning a fixed id. -/
def idFromUrlConst : String → String := fun _ => "1"

/-! Helper lemmas about the Python string-operation models. -/

theorem replaceAllGo_nil (pat repl : List Char) (fuel : Nat) :
    replaceAllGo pat repl fuel [] = [] := by
  cases fuel <;> rfl

theorem replaceAllGo_no_occurrence (pat repl : List Char)
    (s : List Char) (h : hasSub pat s = false) :
    ∀ fuel, s.length ≤ fuel → replaceAllGo pat repl fuel s = s := by
  induction s with
  | nil =>
    intro fuel _
    exact replaceAllGo_nil pat repl fuel
  | cons c rest ih =>
    intro fuel hfuel
    cases fuel with
    | zero => simp at hfuel
    | succ f =>
      simp only [hasSub, Bool.or_eq_false_iff] at h
      simp only [replaceAllGo]
      rw [if_neg (fun hc => by simp [h.1] at hc)]
      have := ih h.2 f (by simp at hfuel; omega)
      rw [this]

/-- When the pattern does not occur in the string, `replaceAll` is the
identity. -/
theorem replaceAll_no_occurrence (pat repl s : List Char)
    (h : hasSub pat s = false) : replaceAll pat repl s = s :=
  replaceAllGo_no_occurrence pat repl s h s.length (Nat.le_refl _)

/-- Deleting a nonempty pattern from `pat ++ s` when the pattern does not
occur in `s` leaves exactly `s`. -/
theorem replaceAll_prefix_strip (pat s : List Char) (hpat : pat ≠ [])
    (h : hasSub pat s = false) : replaceAll pat [] (pat ++ s) = s := by
  cases pat with
  | nil => exact absurd rfl hpat
  | cons p pt =>
    show replaceAllGo (p :: pt) [] ((p :: pt ++ s).length) (p :: pt ++ s) = s
    simp only [List.cons_append, List.length_cons, replaceAllGo]
    rw [if_pos ⟨List.cons_ne_nil p pt,
      List.isPrefixOf_iff_prefix.mpr (List.prefix_append (p :: pt) s)⟩]
    have hdrop : List.drop (pt.length + 1) (p :: (pt ++ s)) = s :=
      List.drop_left (p :: pt) s
    rw [hdrop, List.nil_append]
    exact replaceAllGo_no_occurrence (p :: pt) [] s h (pt ++ s).length
      (by simp [List.length_append])

theorem splitOnChar_ne_nil (sep : Char) (s : List Char) :
    splitOnChar sep s ≠ [] := by
  cases s with
  | nil => simp [splitOnChar]
  | cons c rest =>
    simp only [splitOnChar]
    split
    · simp
    · cases h : splitOnChar sep rest <;> simp

/-- Splitting a string not containing the separator yields the single
group equal to the whole string. -/
theorem splitOnChar_no_sep (sep : Char) (s : List Char) (h : sep ∉ s) :
    splitOnChar sep s = [s] := by
  induction s with
  | nil => rfl
  | cons c rest ih =>
    have hcs : ¬ c = sep := by
      intro hc
      exact h (by rw [hc]; exact List.mem_cons_self sep rest)
    simp only [splitOnChar]
    rw [if_neg hcs]
    rw [ih (fun hm => h (List.mem_cons_of_mem c hm))]

/-- Splitting peels off a separator-free first group. -/
theorem splitOnChar_append_sep (sep : Char) (a b : List Char) (h : sep ∉ a) :
    splitOnChar sep (a ++ sep :: b) = a :: splitOnChar sep b := by
  induction a with
  | nil => simp [splitOnChar]
  | cons c a' ih =>
    have hcs : ¬ c = sep := by
      intro hc
      exact h (by rw [hc]; exact List.mem_cons_self sep a')
    simp only [List.cons_append, splitOnChar]
    rw [if_neg hcs]
    have harg : a'.append (sep :: b) = a' ++ sep :: b := rfl
    rw [harg, ih (fun hm => h (List.mem_cons_of_mem c hm))]

/-- String append is associative (bridging the left-assoc parse of the
Python f-strings with the claim statements). -/
theorem strAppendAssoc (a b c : String) : a ++ b ++ c = a ++ (b ++ c) :=
  String.append_assoc a b c

/-- C4: `is_adding_testcase_to_issue_disabled` returns true exactly when
at least one of base URL, API username and API password is missing or
empty, and false exactly when all three are present and non-empty; it is a
pure function of the configuration. -/
theorem claim_C4_disabled_iff_config_incomplete
    (base_url api_username api_password : Option String) :
    (is_adding_testcase_to_issue_disabled base_url api_username api_password = true ↔
      (base_url = none ∨ base_url = some "" ∨
       api_username = none ∨ api_username = some "" ∨
       api_password = none ∨ api_password = some "")) ∧
    (is_adding_testcase_to_issue_disabled base_url api_username api_password = false ↔
      ((∃ b, base_url = some b ∧ b ≠ "") ∧
       (∃ u, api_username = some u ∧ u ≠ "") ∧
       (∃ p, api_password = some p ∧ p ≠ ""))) := by
  cases base_url <;> cases api_username <;> cases api_password <;>
    simp [is_adding_testcase_to_issue_disabled, truthyStr]
  tauto

/-- C6: `post_comment` issues exactly one `add_comment` call whose body is
the nested raw-content object holding the templated text with every LF
doubled, and returns Python `None` without inspecting the call's result. -/
theorem claim_C6_post_comment_body_shape (text bug_id : String) :
    post_comment text bug_id =
      ({ bug_id := bug_id,
         comment := .obj [("content",
           .obj [("raw", .str (pyReplace text "\n" "\n\n"))])] }, ()) := rfl

/-- C7: the body `_report_issue` hands to `create_issue` has title
`"Failed test: " ++ summary` and `content.raw` equal to the templated
report comment with LF normalized to CRLF, whereas `post_comment`
normalizes LF to double-LF. -/
theorem claim_C7_report_body_title_and_crlf
    (case_summary report_comment text : String) :
    jsonLookup (report_issue_data case_summary report_comment) "title" =
      some (.str ("Failed test: " ++ case_summary)) ∧
    (jsonLookup (report_issue_data case_summary report_comment) "content").bind
      (fun c => jsonLookup c "raw") =
      some (.str (pyReplace report_comment "\n" "\r\n")) ∧
    (jsonLookup (post_comment_body text) "content").bind
      (fun c => jsonLookup c "raw") =
      some (.str (pyReplace text "\n" "\n\n")) :=
  ⟨rfl, rfl, rfl⟩

/-- C5: when the remote issue fetched for the id extracted from `url` is
the sample response, `details url` reshapes it to id / description
(`content.raw`) / status (`state`) / title and echoes `url` back. -/
theorem claim_C5_details_reshapes_fields
    (bug_id_from_url : String → String)
    (getIssue : String → Except Unit Json) (url : String)
    (h : getIssue (bug_id_from_url url) =
      .ok (.obj [("id", .num 1), ("content", .obj [("raw", .str "d")]),
                 ("state", .str "open"), ("title", .str "t")])) :
    details bug_id_from_url getIssue url =
      .ok (.obj [("id", .num 1), ("description", .str "d"),
                 ("status", .str "open"), ("title", .str "t"),
                 ("url", .str url)]) := by
  unfold details
  rw [h]
  rfl

/-- Witness for C5 at a concrete url and remote behaviour. -/
theorem claim_C5_witness :
    details idFromUrlConst getIssueSample "https://bitbucket.org/ws1/repo1/issues/1" =
      .ok (.obj [("id", .num 1), ("description", .str "d"),
                 ("status", .str "open"), ("title", .str "t"),
                 ("url", .str "https://bitbucket.org/ws1/repo1/issues/1")]) :=
  claim_C5_details_reshapes_fields idFromUrlConst getIssueSample
    "https://bitbucket.org/ws1/repo1/issues/1" rfl

/-- C1: whenever any step of `_report_issue`'s sequence raises — the
`create_issue` call itself, the `issue["id"]` lookup, or the link-record
persistence — the function returns `(None, u ++ "issues/new")` where `u`
is the base URL with a trailing slash appended when missing; and when the
failure is in `create_issue` itself, no link record is created. -/
theorem claim_C1_any_exception_falls_back
    (base_url : String) (execution : Nat) (case_summary report_comment : String)
    (createIssue : Json → Except Unit Json) (persist : LinkRecord → Bool) :
    (createIssue (report_issue_data case_summary report_comment) = .error () →
      _report_issue base_url execution case_summary report_comment createIssue persist =
        ((none, report_fallback_url base_url), [])) ∧
    (∀ issue, createIssue (report_issue_data case_summary report_comment) = .ok issue →
      jsonLookup issue "id" = none →
      (_report_issue base_url execution case_summary report_comment createIssue persist).1 =
        (none, report_fallback_url base_url)) ∧
    (∀ issue issueId,
      createIssue (report_issue_data case_summary report_comment) = .ok issue →
      jsonLookup issue "id" = some issueId →
      persist ⟨execution, base_url ++ "/issues/" ++ pyStr issueId, true⟩ = false →
      (_report_issue base_url execution case_summary report_comment createIssue persist).1 =
        (none, report_fallback_url base_url)) ∧
    report_fallback_url base_url =
      (if pyEndsWith base_url "/" then base_url else base_url ++ "/") ++ "issues/new" := by
  refine ⟨?_, ?_, ?_, rfl⟩
  · intro hcreate
    unfold _report_issue
    simp only [hcreate]
  · intro issue hcreate hid
    unfold _report_issue
    simp only [hcreate, hid]
  · intro issue issueId hcreate hid hpersist
    unfold _report_issue
    simp only [hcreate, hid, hpersist]
    simp

/-- Witness for C1: a raising `create_issue` yields the fallback pair and
no link record, here with a base URL lacking the trailing slash. -/
theorem claim_C1_witness :
    _report_issue "https://bitbucket.org/ws1/repo1" 7 "summary" "body"
        createFail persistAlways =
      ((none, "https://bitbucket.org/ws1/repo1/issues/new"), []) := by
  rw [(claim_C1_any_exception_falls_back "https://bitbucket.org/ws1/repo1" 7
    "summary" "body" createFail persistAlways).1 rfl]
  rfl

/-- C3: when `create_issue` answers an object whose `id` is 42 and the
link persistence succeeds, `_report_issue` returns the issue object and
`base_url ++ "/issues/42"`, creating exactly the one link record
`(execution, that url, is_defect = true)`. -/
theorem claim_C3_successful_report
    (base_url : String) (execution : Nat) (case_summary report_comment : String)
    (createIssue : Json → Except Unit Json) (persist : LinkRecord → Bool)
    (issue : Json)
    (hcreate : createIssue (report_issue_data case_summary report_comment) = .ok issue)
    (hid : jsonLookup issue "id" = some (.num 42))
    (hpersist : persist ⟨execution, base_url ++ "/issues/42", true⟩ = true) :
    _report_issue base_url execution case_summary report_comment createIssue persist =
      ((some issue, base_url ++ "/issues/42"),
       [⟨execution, base_url ++ "/issues/42", true⟩]) := by
  unfold _report_issue
  simp only [hcreate, hid]
  have hurl : base_url ++ "/issues/" ++ pyStr (.num 42) = base_url ++ "/issues/42" := by
    rw [strAppendAssoc]
    rfl
  rw [hurl]
  simp only [hpersist, if_true]

/-- Witness for C3 at a concrete configuration and remote behaviour. -/
theorem claim_C3_witness :
    _report_issue "https://bitbucket.org/ws1/repo1" 7 "s" "line1\nline2"
        createOk42 persistAlways =
      ((some (.obj [("id", .num 42), ("title", .str "Failed test: s")]),
        "https://bitbucket.org/ws1/repo1/issues/42"),
       [⟨7, "https://bitbucket.org/ws1/repo1/issues/42", true⟩]) :=
  claim_C3_successful_report "https://bitbucket.org/ws1/repo1" 7 "s" "line1\nline2"
    createOk42 persistAlways (.obj [("id", .num 42), ("title", .str "Failed test: s")])
    rfl rfl rfl

/-- C10: when the remote issue is created and carries an id but the
link-record persistence raises, `_report_issue` still returns the fallback
pair, indistinguishable from a total failure; and a success pair is
returned only when every step of the sequence succeeded. -/
theorem claim_C10_persistence_failure_masks_created_issue
    (base_url : String) (execution : Nat) (case_summary report_comment : String)
    (createIssue : Json → Except Unit Json) (persist : LinkRecord → Bool) :
    (∀ issue issueId,
      createIssue (report_issue_data case_summary report_comment) = .ok issue →
      jsonLookup issue "id" = some issueId →
      persist ⟨execution, base_url ++ "/issues/" ++ pyStr issueId, true⟩ = false →
      (_report_issue base_url execution case_summary report_comment createIssue persist).1 =
        (none, report_fallback_url base_url)) ∧
    (∀ issue url,
      (_report_issue base_url execution case_summary report_comment createIssue persist).1 =
        (some issue, url) →
      ∃ issueId,
        createIssue (report_issue_data case_summary report_comment) = .ok issue ∧
        jsonLookup issue "id" = some issueId ∧
        url = base_url ++ "/issues/" ++ pyStr issueId ∧
        persist ⟨execution, url, true⟩ = true) := by
  constructor
  · intro issue issueId hcreate hid hpersist
    unfold _report_issue
    simp only [hcreate, hid, hpersist]
    simp
  · intro issue url hres
    unfold _report_issue at hres
    cases hcreate : createIssue (report_issue_data case_summary report_comment) with
    | error e =>
      simp only [hcreate] at hres
      simp at hres
    | ok issueObj =>
      simp only [hcreate] at hres
      cases hid : jsonLookup issueObj "id" with
      | none =>
        simp only [hid] at hres
        simp at hres
      | some issueId =>
        simp only [hid] at hres
        cases hp : persist ⟨execution, base_url ++ "/issues/" ++ pyStr issueId, true⟩ with
        | false =>
          simp only [hp] at hres
          simp at hres
        | true =>
          simp only [hp, if_true] at hres
          rw [Prod.mk.injEq] at hres
          obtain ⟨h1, h2⟩ := hres
          obtain rfl : issueObj = issue := Option.some.inj h1
          exact ⟨issueId, rfl, hid, h2.symm, h2 ▸ hp⟩

/-- Witness for C10: remote creation succeeds with id 42 but persistence
raises, and the caller sees exactly the total-failure fallback pair. -/
theorem claim_C10_witness :
    (_report_issue "https://bitbucket.org/ws1/repo1" 7 "s" "c"
        createOk42 persistNever).1 =
      (none, "https://bitbucket.org/ws1/repo1/issues/new") := by
  rw [(claim_C10_persistence_failure_masks_created_issue
    "https://bitbucket.org/ws1/repo1" 7 "s" "c" createOk42 persistNever).1
    (.obj [("id", .num 42), ("title", .str "Failed test: s")]) (.num 42) rfl rfl rfl]
  rfl

/-- A mapped-parsed request outcome is never the raw response object. -/
theorem returnsRaw_map_parsed (x : Except Unit Json) :
    returnsRaw (Except.map .parsed x) = false := by
  cases x <;> rfl

/-- A non-DELETE `_request` is the JSON-parsed response body. -/
theorem BBrequest_not_delete (http : String → String → Option Json → HttpResponse)
    (parseJson : String → Except Unit Json) (method url : String) (body : Option Json)
    (h : (method == "DELETE") = false) :
    BBrequest http parseJson method url body =
      Except.map .parsed (parseJson (http method url body).body) := by
  unfold BBrequest
  rw [h]
  simp only [Bool.false_eq_true, if_false]
  cases parseJson (http method url body).body <;> rfl

/-- C8: `delete_comment` returns the raw response object of its DELETE
request, while the five other endpoint operations return the JSON-parsed
body of their requests (never a raw response). -/
theorem claim_C8_delete_raw_others_parsed (api : BitBucketAPI)
    (http : String → String → Option Json → HttpResponse)
    (parseJson : String → Except Unit Json)
    (issue_id comment_id : String) (data comment : Json) :
    delete_comment api http parseJson issue_id comment_id =
      .ok (.raw (http "DELETE"
        (api.endpoint_url ++ "/issues/" ++ issue_id ++ "/comments/" ++ comment_id)
        none)) ∧
    returnsRaw (delete_comment api http parseJson issue_id comment_id) = true ∧
    create_issue api http parseJson data =
      Except.map .parsed
        (parseJson (http "POST" (api.endpoint_url ++ "/issues") (some data)).body) ∧
    get_issue api http parseJson issue_id =
      Except.map .parsed
        (parseJson (http "GET" (api.endpoint_url ++ "/issues/" ++ issue_id) none).body) ∧
    update_issue api http parseJson issue_id data =
      Except.map .parsed
        (parseJson (http "POST"
          (api.endpoint_url ++ "/issues/" ++ issue_id ++ "/changes") (some data)).body) ∧
    add_comment api http parseJson issue_id comment =
      Except.map .parsed
        (parseJson (http "POST"
          (api.endpoint_url ++ "/issues/" ++ issue_id ++ "/comments/") (some comment)).body) ∧
    get_comments api http parseJson issue_id =
      Except.map .parsed
        (parseJson (http "GET"
          (api.endpoint_url ++ "/issues/" ++ issue_id ++ "/comments?sort=-updated_on")
          none).body) ∧
    returnsRaw (create_issue api http parseJson data) = false ∧
    returnsRaw (get_issue api http parseJson issue_id) = false ∧
    returnsRaw (update_issue api http parseJson issue_id data) = false ∧
    returnsRaw (add_comment api http parseJson issue_id comment) = false ∧
    returnsRaw (get_comments api http parseJson issue_id) = false := by
  refine ⟨rfl, rfl,
    BBrequest_not_delete http parseJson "POST" _ _ rfl,
    BBrequest_not_delete http parseJson "GET" _ _ rfl,
    BBrequest_not_delete http parseJson "POST" _ _ rfl,
    BBrequest_not_delete http parseJson "POST" _ _ rfl,
    BBrequest_not_delete http parseJson "GET" _ _ rfl,
    ?_, ?_, ?_, ?_, ?_⟩
  · unfold create_issue
    rw [BBrequest_not_delete http parseJson "POST" _ _ rfl]
    exact returnsRaw_map_parsed _
  · unfold get_issue
    rw [BBrequest_not_delete http parseJson "GET" _ _ rfl]
    exact returnsRaw_map_parsed _
  · unfold update_issue
    rw [BBrequest_not_delete http parseJson "POST" _ _ rfl]
    exact returnsRaw_map_parsed _
  · unfold add_comment
    rw [BBrequest_not_delete http parseJson "POST" _ _ rfl]
    exact returnsRaw_map_parsed _
  · unfold get_comments
    rw [BBrequest_not_delete http parseJson "GET" _ _ rfl]
    exact returnsRaw_map_parsed _

/-- Endpoint construction fails on every URL that splits into fewer than
three segments. -/
theorem construct_endpoint_short_none (v url : String)
    (h : (splitOnChar '/' (replaceAll "https://".data [] url.data)).length < 3) :
    construct_endpoint_url v url = none := by
  unfold construct_endpoint_url
  generalize hL : splitOnChar '/' (replaceAll "https://".data [] url.data) = L at h ⊢
  rcases L with _ | ⟨a, _ | ⟨b, _ | ⟨c, rest⟩⟩⟩
  · rfl
  · rfl
  · rfl
  · simp only [List.length_cons] at h
    omega

/-- C9: when stripping `https://` and splitting on `/` leaves fewer than
three segments, endpoint construction raises an `IndexError` (modelled by
`none`), for every api version, and so does `BitBucketAPI` construction. -/
theorem claim_C9_short_url_raises (url : String)
    (h : (splitOnChar '/' (replaceAll "https://".data [] url.data)).length < 3) :
    (∀ api_version, construct_endpoint_url api_version url = none) ∧
    (∀ api_username api_password,
      BitBucketAPI.init url api_username api_password = none) := by
  have hcons : ∀ v, construct_endpoint_url v url = none :=
    fun v => construct_endpoint_short_none v url h
  refine ⟨hcons, fun u p => ?_⟩
  unfold BitBucketAPI.init
  rw [hcons "2.0"]

/-- Witness for C9 at the malformed base URL from the spec example. -/
theorem claim_C9_witness :
    construct_endpoint_url "2.0" "https://bitbucket.org" = none ∧
    BitBucketAPI.init "https://bitbucket.org" "user" "pass" = none := by
  have h := claim_C9_short_url_raises "https://bitbucket.org" (by decide)
  exact ⟨h.1 "2.0", h.2 "user" "pass"⟩

/-- C2 fails as stated: for the base URL with workspace `ws`, repository
`xhttps:` and the further path segments `` and `y`, the code does not
strip only the leading `https://` — `str.replace` removes the later
occurrence spanning the repository boundary as well, so the derived
endpoint names repository `xy`, not `xhttps:`. -/
theorem claim_C2_counterexample :
    construct_endpoint_url "2.0"
        ("https://bitbucket.org/" ++ "ws" ++ "/" ++ "xhttps:" ++ "/" ++ "" ++ "/" ++ "y") ≠
      some ("https://api.bitbucket.org/2.0/repositories/" ++ "ws" ++ "/" ++ "xhttps:") ∧
    construct_endpoint_url "2.0" "https://bitbucket.org/ws/xhttps://y" =
      some "https://api.bitbucket.org/2.0/repositories/ws/xy" := by
  decide

/-- C2 (amended): the code removes every occurrence of the substring
`https://` before splitting, not only the prefix; for every base URL
`https://bitbucket.org/{workspace}/{repository}` (optionally with further
path segments) whose remainder after the leading `https://` contains no
further occurrence of `https://`, the derived endpoint equals
`https://api.bitbucket.org/2.0/repositories/{workspace}/{repository}`. -/
theorem claim_C2_endpoint_derivation (ws repo rest : String)
    (hws : ('/' : Char) ∉ ws.data) (hrepo : ('/' : Char) ∉ repo.data)
    (hrest : rest = "" ∨ ∃ t : String, rest = "/" ++ t)
    (hno : strHasSub "https://" ("bitbucket.org/" ++ ws ++ "/" ++ repo ++ rest) = false) :
    construct_endpoint_url "2.0" ("https://bitbucket.org/" ++ ws ++ "/" ++ repo ++ rest) =
      some ("https://api.bitbucket.org/2.0/repositories/" ++ ws ++ "/" ++ repo) := by
  have hTdata : ("bitbucket.org/" ++ ws ++ "/" ++ repo ++ rest).data =
      "bitbucket.org".data ++ '/' :: (ws.data ++ '/' :: (repo.data ++ rest.data)) := by
    simp [String.data_append, List.append_assoc]
  have hurl : ("https://bitbucket.org/" ++ ws ++ "/" ++ repo ++ rest).data =
      "https://".data ++ ("bitbucket.org/" ++ ws ++ "/" ++ repo ++ rest).data := by
    simp [String.data_append, List.append_assoc]
  have hrepl : replaceAll "https://".data []
        (("https://bitbucket.org/" ++ ws ++ "/" ++ repo ++ rest).data) =
      ("bitbucket.org/" ++ ws ++ "/" ++ repo ++ rest).data := by
    rw [hurl]
    exact replaceAll_prefix_strip _ _ (by decide) hno
  have htail : ∃ restGroups, splitOnChar '/' (repo.data ++ rest.data) =
      repo.data :: restGroups := by
    rcases hrest with hr | ⟨t, hr⟩
    · subst hr
      exact ⟨[], by simpa using splitOnChar_no_sep '/' repo.data hrepo⟩
    · subst hr
      refine ⟨splitOnChar '/' t.data, ?_⟩
      rw [show (("/" ++ t : String)).data = '/' :: t.data from
        by rw [String.data_append]; rfl]
      exact splitOnChar_append_sep '/' repo.data t.data hrepo
  obtain ⟨restGroups, htail⟩ := htail
  have hsplit : splitOnChar '/'
        (("bitbucket.org/" ++ ws ++ "/" ++ repo ++ rest).data) =
      "bitbucket.org".data :: ws.data :: repo.data :: restGroups := by
    rw [hTdata]
    rw [splitOnChar_append_sep '/' "bitbucket.org".data _ (by decide)]
    rw [splitOnChar_append_sep '/' ws.data _ hws]
    rw [htail]
  unfold construct_endpoint_url
  rw [hrepl, hsplit]
  rfl

/-- Witness for the amended C2 at the spec's example repository URL. -/
theorem claim_C2_witness :
    construct_endpoint_url "2.0" "https://bitbucket.org/ws1/repo1" =
      some "https://api.bitbucket.org/2.0/repositories/ws1/repo1" :=
  claim_C2_endpoint_derivation "ws1" "repo1" ""
    (by decide) (by decide) (Or.inl rfl) (by decide)

end BitBucketSpec
